import Mathlib

/-!
Verification development for the pkt-line transport engine of
koa-git-smart-proxy (src/helpers.ts, src/source.ts, src/index.ts and the
iterations of the same modules shipped in the repository).

Byte buffers are modelled as lists of characters, one character per byte
(the protocol header data handled here is ASCII, where the utf8 decoding
performed by Buffer.toString is the identity).  JavaScript numbers that
can be NaN are modelled by an explicit JSNum type, because
Number.parseInt returns NaN (it never throws), and the segmenter keeps
computing with such values.
-/

namespace KoaGitProxy

/-- A byte buffer, one character per byte. -/
abbrev Buff := List Char

/-- Shorthand turning a string literal into a buffer. -/
def str (s : String) : Buff := s.data

/-- A JavaScript number as used by the pkt-line code: an integer or NaN. -/
inductive JSNum where
  | nan : JSNum
  | num (n : Int) : JSNum
deriving DecidableEq, Repr

/-- JavaScript addition: NaN is absorbing. -/
def jsAdd : JSNum → JSNum → JSNum
  | .num a, .num b => .num (a + b)
  | _, _ => .nan

/-- JavaScript strict equality of a number against an integer literal; NaN compares unequal to everything. -/
def jsEq : JSNum → Int → Bool
  | .num a, b => a = b
  | .nan, _ => false

/-- JavaScript comparison a > b against an integer; false whenever a is NaN. -/
def jsGtI : JSNum → Int → Bool
  | .num a, b => b < a
  | .nan, _ => false

/-- JavaScript comparison a >= b against an integer; false whenever a is NaN. -/
def jsGeI : JSNum → Int → Bool
  | .num a, b => b ≤ a
  | .nan, _ => false

/-- JavaScript comparison a < b against an integer; false whenever a is NaN. -/
def jsLtI : JSNum → Int → Bool
  | .num a, b => a < b
  | .nan, _ => false

/-- Index coercion used by Buffer.prototype.slice: NaN becomes 0, a negative
index counts from the end clamped at 0, and indices are clamped to the length. -/
def idxOf (len : Nat) : JSNum → Nat
  | .nan => 0
  | .num n => if n < 0 then len - n.natAbs else min n.toNat len

/-- Buffer.prototype.slice(start, end): the bytes from the coerced start
index (inclusive) to the coerced end index (exclusive). -/
def jsSlice (b : Buff) (s e : JSNum) : Buff :=
  (b.take (idxOf b.length e)).drop (idxOf b.length s)

/-- Buffer.prototype.slice(start) with no end argument: end defaults to the length. -/
def jsSliceFrom (b : Buff) (s : JSNum) : Buff :=
  jsSlice b s (.num b.length)

/-- ASCII whitespace recognised by the StringToNumber trimming step of parseInt. -/
def isJsWs (c : Char) : Bool :=
  c = ' ' || c = '\t' || c = '\n' || c = '\x0b' || c = '\x0c' || c = '\r'

/-- Hexadecimal digit as accepted by parseInt with radix 16 (both cases). -/
def isHexAny (c : Char) : Bool :=
  (decide ('0' ≤ c) && decide (c ≤ '9')) ||
  (decide ('a' ≤ c) && decide (c ≤ 'f')) ||
  (decide ('A' ≤ c) && decide (c ≤ 'F'))

/-- Value of a hexadecimal digit. -/
def hexVal (c : Char) : Nat :=
  if decide ('0' ≤ c) && decide (c ≤ '9') then c.toNat - 48
  else if decide ('a' ≤ c) && decide (c ≤ 'f') then c.toNat - 87
  else c.toNat - 55

/-- Longest prefix of hexadecimal digits, folded into a number; none when empty. -/
def hexPrefVal : Buff → Option Nat → Option Nat
  | [], acc => acc
  | c :: rest, acc =>
    if isHexAny c then hexPrefVal rest (some ((acc.getD 0) * 16 + hexVal c))
    else acc

/-- Number.parseInt(s, 16): trim leading whitespace, read an optional sign,
strip an optional 0x / 0X prefix, then parse the longest run of hex digits;
the result is NaN when that run is empty.  parseInt never throws. -/
def parseIntHex (l : Buff) : JSNum :=
  let l := l.dropWhile isJsWs
  let (sgn, l) : Int × Buff :=
    match l with
    | '-' :: rest => (-1, rest)
    | '+' :: rest => (1, rest)
    | l => (1, l)
  let l := match l with
    | '0' :: 'x' :: rest => rest
    | '0' :: 'X' :: rest => rest
    | l => l
  match hexPrefVal l none with
  | none => .nan
  | some v => .num (sgn * v)

/-- pkt_length from src/helpers.ts (lines 14-20).  Note the two slips kept
faithfully: the slice is buffer.slice(offset, 4), i.e. the bytes from
offset up to absolute index 4 (not offset+4), and the catch clause is dead
because Number.parseInt returns NaN instead of throwing, so the function
never returns -1 for non-hex content. -/
def pkt_length (buffer : Buff) (offset : JSNum := .num 0) : JSNum :=
  parseIntHex (jsSlice buffer offset (.num 4))

/-- Outcome of one transform call of pkt_seperator (src/helpers.ts 22-72):
the frames pushed, the stashed underflow, and whether the do..while loop
terminated (reached the final next() call) within the given fuel. -/
structure SepOut where
  pushed : List Buff
  und : Option Buff
  done : Bool
deriving DecidableEq, Repr

/-- The code after the do..while loop of the transform: push the remaining
overflow bytes when no underflow was stashed and the offset is inside the buffer. -/
def sepFinish (buffer : Buff) (offset : JSNum) (acc : List Buff) : SepOut :=
  let acc := if jsLtI offset buffer.length then jsSliceFrom buffer offset :: acc else acc
  ⟨acc.reverse, none, true⟩

/-- The do..while loop of the pkt_seperator transform, fuelled because the
loop does not terminate on all inputs (once offset becomes NaN the state
repeats forever).  Mirrors src/helpers.ts lines 32-67 statement by
statement; done is false when the fuel runs out before next() is reached. -/
def sepLoop : Nat → Buff → JSNum → JSNum → List Buff → SepOut
  | 0, _, _, _, acc => ⟨acc.reverse, none, false⟩
  | fuel + 1, buffer, offset0, length0, acc =>
    let offset := jsAdd (jsAdd offset0 length0) (.num 1)
    let length := pkt_length buffer offset
    if jsEq offset 0 && jsEq length (-1) then
      sepFinish buffer offset acc
    else
      let length := if jsEq length 0 then JSNum.num 4 else length
      if jsGtI (jsAdd offset length) buffer.length then
        ⟨acc.reverse, some (jsSliceFrom buffer offset), true⟩
      else
        let acc := (if jsGeI length 4 then jsSlice buffer offset length
                    else jsSliceFrom buffer offset) :: acc
        if jsEq length (-1) then sepFinish buffer offset acc
        else sepLoop fuel buffer offset length acc

/-- One transform call: prepend the pending underflow, then run the loop
with offset = -1 and length = 0 (the loop body immediately sets offset 0). -/
def sepTransform (fuel : Nat) (und : Option Buff) (chunk : Buff) : SepOut :=
  sepLoop fuel (und.elim chunk (· ++ chunk)) (.num (-1)) (.num 0) []

/-- Result of feeding a chunk sequence through pkt_seperator: the emitted
frames, the final underflow, and whether some transform call failed to
terminate (in which case next() is never called and the remaining chunks
are never delivered by the stream machinery). -/
structure SepRun where
  frames : List Buff
  und : Option Buff
  stalled : Bool
deriving DecidableEq, Repr

/-- Feed chunks one at a time through the segmenter transform. -/
def sepRun (fuel : Nat) : List Buff → Option Buff → SepRun
  | [], und => ⟨[], und, false⟩
  | c :: cs, und =>
    let out := sepTransform fuel und c
    if out.done then
      let rest := sepRun fuel cs out.und
      ⟨out.pushed ++ rest.frames, rest.und, rest.stalled⟩
    else
      ⟨out.pushed, out.und, true⟩

/-- Lowercase hexadecimal digit, the character class [0-9a-f] of the
metadata regular expressions in src/source.ts. -/
def isHexLower (c : Char) : Bool :=
  (decide ('0' ≤ c) && decide (c ≤ '9')) || (decide ('a' ≤ c) && decide (c ≤ 'f'))

/-- The regular expression for upload-pack request frames,
matching 4 hex digits, the literal want or have, a space, a 40 hex digit
object id and an optional trailing newline, anchored at both ends.
Returns captures 1 (want / have) and 2 (the object id). -/
def uploadMatch (l : Buff) : Option (Buff × Buff) :=
  let four := l.take 4
  let rest := l.drop 4
  if four.length = 4 ∧ four.all isHexLower = true then
    if rest.take 5 = str "want " ∨ rest.take 5 = str "have " then
      let ty := rest.take 4
      let r2 := rest.drop 5
      let oid := r2.take 40
      let tl := r2.drop 40
      if oid.length = 40 ∧ oid.all isHexLower = true ∧ (tl = [] ∨ tl = [ '\n' ]) then
        some (ty, oid)
      else none
    else none
  else none

/-- The dot of a JavaScript regular expression: any character except a line
terminator. -/
def dotOk (c : Char) : Bool := !(c = '\n' || c = '\r')

/-- The tail pattern of the receive-pack regular expression after the NUL:
capture 6 is the maximal run without a newline, followed by at most one
trailing newline and the end of input. -/
def capTail (t : Buff) : Option Buff :=
  let g6 := t.takeWhile (fun c => !(c = '\n'))
  let r := t.drop g6.length
  if r = [] ∨ r = [ '\n' ] then some g6 else none

/-- Lazy scan of capture 5 of the receive-pack regular expression: the
shortest run of dot characters followed by a NUL whose tail matches
capTail; the NUL itself is a dot character, so the scan continues past a
NUL with a bad tail. -/
def findNul : Buff → Buff → Option (Buff × Buff)
  | _, [] => none
  | acc, c :: rest =>
    if c = '\x00' then
      match capTail rest with
      | some g6 => some (acc.reverse, g6)
      | none => if dotOk c then findNul (c :: acc) rest else none
    else if dotOk c then findNul (c :: acc) rest else none

/-- Captures of the receive-pack regular expression of src/source.ts
(the part_004 iteration): old id, new id, full ref path, ref type, ref
name and the capability segment. -/
structure RecGroups where
  old : Buff
  nw : Buff
  path : Buff
  rtype : Buff
  rname : Buff
  caps : Buff
deriving DecidableEq, Repr

/-- The receive-pack regular expression: 4 hex digits, two 40 hex digit ids
separated by spaces, a space, refs/ then a slash free segment (capture 4),
a slash, a lazy segment (capture 5) up to a NUL, then the capability tail.
Greedy and lazy subpatterns are resolved as the backtracking engine does:
capture 4 is the maximal slash free run, capture 5 the minimal dot run
whose following NUL has a well formed tail. -/
def receiveMatch (l : Buff) : Option RecGroups :=
  let four := l.take 4
  if four.length = 4 ∧ four.all isHexLower = true then
    let r := l.drop 4
    let old := r.take 40
    let r1 := r.drop 40
    if old.length = 40 ∧ old.all isHexLower = true ∧ r1.take 1 = str " " then
      let r2 := r1.drop 1
      let nw := r2.take 40
      let r3x := r2.drop 40
      if nw.length = 40 ∧ nw.all isHexLower = true ∧ r3x.take 1 = str " " then
        let r3 := r3x.drop 1
        if r3.take 5 = str "refs/" then
          let r4 := r3.drop 5
          let g4 := r4.takeWhile (fun c => !(c = '/'))
          if g4 ≠ [] ∧ (r4.drop g4.length).take 1 = str "/" then
            let r5 := r4.drop (g4.length + 1)
            match findNul [] r5 with
            | some (g5, g6) =>
              some ⟨old, nw, str "refs/" ++ g4 ++ '/' :: g5, g4, g5, g6⟩
            | none => none
          else none
        else none
      else none
    else none
  else none

/-- String.prototype.trim: remove whitespace from both ends. -/
def jsTrim (l : Buff) : Buff :=
  ((l.dropWhile isJsWs).reverse.dropWhile isJsWs).reverse

/-- String.prototype.split with a single space separator. -/
def splitSp : Buff → List Buff
  | [] => [[]]
  | c :: rest =>
    match splitSp rest with
    | [] => [[]]
    | h :: t => if c = ' ' then [] :: h :: t else (c :: h) :: t

/-- The ref record stored by the part_004 iteration of ReceivePack. -/
structure RefInfo where
  name : Buff
  path : Buff
  type : Buff
deriving DecidableEq, Repr

/-- GitMetadata (src/source.ts): every field optional, absent until the
corresponding frame is parsed.  The field have is spelled have_ because
have is reserved in Lean. -/
structure GitMetadata where
  want : Option (List Buff) := none
  have_ : Option (List Buff) := none
  ref : Option RefInfo := none
  old_commit : Option Buff := none
  new_commit : Option Buff := none
  capabilities : Option (List Buff) := none
deriving DecidableEq, Repr

/-- Metadata effect of one UploadStream._write frame: on a regex match,
create the want / have list if absent and append capture 2. -/
def uploadAction (m : GitMetadata) (buffer : Buff) : GitMetadata :=
  match uploadMatch buffer with
  | none => m
  | some (ty, oid) =>
    if ty = str "want" then { m with want := some ((m.want.getD []) ++ [oid]) }
    else { m with have_ := some ((m.have_.getD []) ++ [oid]) }

/-- Metadata effect of one ReceivePack._write frame (part_004 iteration):
on a regex match store the commits, the ref record and the capabilities,
where the capability segment is trimmed and split on spaces when truthy. -/
def receiveAction (m : GitMetadata) (buffer : Buff) : GitMetadata :=
  match receiveMatch buffer with
  | none => m
  | some g =>
    { m with
      old_commit := some g.old
      new_commit := some g.nw
      ref := some ⟨g.rname, g.path, g.rtype⟩
      capabilities := some (if g.caps ≠ [] then splitSp (jsTrim g.caps) else []) }

/-- Events driving one GitStream session: a pending chunk delivered to
_write, a call of the inner source._read (issued by the stream machinery
once the backend side pulls, or by the parsed handler when a read was
already pending), and the backend stdin consuming the head of the source
queue. -/
inductive Ev where
  | write : Ev
  | readSrc : Ev
  | drain : Ev
deriving DecidableEq, Repr

/-- State of one GitStream session on its write side (src/source.ts):
pending chunks not yet delivered by the writable machinery, the parsed
flag, the __buffers stack (none once deleted by source._read), the
readable queue of the inner source duplex, the chunks already consumed by
the backend stdin, whether the last _write has called next() (no further
chunk is delivered until it has), and the accumulated metadata. -/
structure StreamState where
  pending : List Buff
  parsed : Bool := false
  buffers : Option (List Buff) := some []
  queue : List Buff := []
  stdin : List Buff := []
  canWrite : Bool := true
  meta : GitMetadata := {}
deriving DecidableEq, Repr

/-- Fresh session about to receive the given chunks. -/
def initStream (ws : List Buff) : StreamState := { pending := ws }

/-- One _write call (UploadStream._write / ReceivePack._write, identical
but for the metadata action): once the source exists the chunk is pushed
onto the source queue and next is withheld; before that the chunk is
stacked on __buffers, then either parsed as metadata (positive pkt length,
next called at once) or, on the flush / unparsable frame, next is withheld
and the parsed event fires. -/
def stepWrite (action : GitMetadata → Buff → GitMetadata) (s : StreamState) : StreamState :=
  if s.canWrite then
    match s.pending with
    | [] => s
    | w :: ws =>
      if s.parsed then
        { s with pending := ws, queue := s.queue ++ [w], canWrite := false }
      else
        let bufs := s.buffers.getD []
        if jsGtI (pkt_length w) 0 then
          { s with pending := ws, buffers := some (bufs ++ [w]), meta := action s.meta w }
        else
          { s with pending := ws, buffers := some (bufs ++ [w]), parsed := true,
                   canWrite := false }
  else s

/-- source._read: replay the stacked __buffers onto the source queue and
delete them, then release the withheld next so that writing may resume.
The source only exists once parsed has fired. -/
def stepRead (s : StreamState) : StreamState :=
  if s.parsed then
    { s with queue := s.queue ++ s.buffers.getD [], buffers := none, canWrite := true }
  else s

/-- The backend stdin consumes the head of the source readable queue. -/
def stepDrain (s : StreamState) : StreamState :=
  match s.queue with
  | [] => s
  | c :: q => { s with queue := q, stdin := s.stdin ++ [c] }

/-- Dispatch one event. -/
def stepEv (action : GitMetadata → Buff → GitMetadata) (s : StreamState) : Ev → StreamState
  | .write => stepWrite action s
  | .readSrc => stepRead s
  | .drain => stepDrain s

/-- Run a session under a schedule of events. -/
def runStream (action : GitMetadata → Buff → GitMetadata)
    (s : StreamState) : List Ev → StreamState
  | [] => s
  | e :: evs => runStream action (stepEv action s e) evs

/-- ServiceType of src/index.ts. -/
inductive ServiceType where
  | UNKNOWN : ServiceType
  | INFO : ServiceType
  | PULL : ServiceType
  | PUSH : ServiceType
deriving DecidableEq, Repr

/-- The parts of the koa context consulted by GitSmartProxy.match:
method, path, the service query parameter (absent when not given) and the
content-type header (the empty string when absent, as ctx.get returns). -/
structure Req where
  method : String
  path : Buff
  queryService : Option Buff
  contentType : Buff
deriving DecidableEq, Repr

/-- The object returned by a successful GitSmartProxy.match. -/
structure MatchResult where
  content_type : Buff
  repository : Buff
  service : Buff
  type : ServiceType
deriving DecidableEq, Repr

/-- Match of a path against a pattern of match_array, all of the shape
anchored optional slash, lazy capture 1, then the given literal suffix and
the end of input.  Capture 1 is the part before the suffix with one
leading slash removed when present (the optional slash is tried first by
the greedy quantifier), and may not contain a line terminator. -/
def pathCapture (sfx : Buff) (path : Buff) : Option Buff :=
  if sfx.length ≤ path.length ∧ path.drop (path.length - sfx.length) = sfx then
    let pre := path.take (path.length - sfx.length)
    let g1 := match pre with
      | '/' :: t => t
      | t => t
    if g1.all dotOk = true then some g1 else none
  else none

/-- String.prototype.slice(n) for a nonnegative start index. -/
def strSliceFrom (l : Buff) (n : Nat) : Buff := l.drop n

/-- get_service of src/index.ts (lines 667-678): the input must be truthy,
start with git- and the remainder must be one of the two valid services. -/
def get_service (inp : Option Buff) : Option Buff :=
  match inp with
  | none => none
  | some s =>
    if s ≠ [] ∧ s.take 4 = str "git-" then
      let svc := s.drop 4
      if svc = str "upload-pack" ∨ svc = str "receive-pack" then some svc else none
    else none

/-- One entry of the match_array loop body of GitSmartProxy.match
(src/index.ts lines 508-552).  Returns the inner result when the path
regex matched: some (some r) on success, some none when one of the
validity checks failed (the code executes a plain return, so match
returns undefined), none when the path regex did not match (loop
continues). -/
def matchEntry (ty : ServiceType) (ctype sfx : Buff) (req : Req) :
    Option (Option MatchResult) :=
  match pathCapture sfx req.path with
  | none => none
  | some g1 =>
    let isInfo := ty = ServiceType.INFO
    if req.method ≠ (if isInfo then "GET" else "POST") then some none
    else
      match get_service (if isInfo then req.queryService
                         else some (strSliceFrom req.path (g1.length + 1))) with
      | none => some none
      | some svc =>
        if ¬ isInfo ∧ req.contentType ≠ str "application/x-git-" ++ svc ++ str "-request" then
          some none
        else
          let ct := if isInfo then str "application/x-git-" ++ svc ++ str "-advertisement"
                    else ctype
          some (some { content_type := ct, repository := g1, service := svc, type := ty })

/-- GitSmartProxy.match of src/index.ts: try the PULL, PUSH and INFO
entries in the order of match_array; falling through the loop or hitting
a validity check returns undefined (modelled as none). -/
def gsMatch (req : Req) : Option MatchResult :=
  match matchEntry .PULL (str "application/x-git-upload-pack-result")
      (str "/git-upload-pack") req with
  | some r => r
  | none =>
    match matchEntry .PUSH (str "application/x-git-receive-pack-result")
        (str "/git-receive-pack") req with
    | some r => r
    | none =>
      match matchEntry .INFO (str "application/x-git-%s-advertisement")
          (str "/info/refs") req with
      | some r => r
      | none => none

/-- The constructor of GitSmartProxy (src/index.ts lines 364-375)
destructures the result of this.match(); when match returned undefined
the destructuring throws a TypeError, modelled as none.  On success the
session starts with the matched type and repository. -/
def mkProxy (req : Req) : Option (ServiceType × Buff) :=
  match gsMatch req with
  | none => none
  | some r => some (r.type, r.repository)

/-- RequestStatus / AcceptStatus of src/index.ts. -/
inductive RequestStatus where
  | PENDING : RequestStatus
  | ACCEPTED : RequestStatus
  | REJECTED : RequestStatus
deriving DecidableEq, Repr

/-- The response fields the engine writes on the koa context. -/
structure HttpResp where
  rtype : Buff
  rstatus : Nat
  bodyIsSource : Bool
  reasonBody : Option Buff
deriving DecidableEq, Repr

/-- The http-status lookup table, restricted to the codes this library
uses (HttpCodes.OK, HttpCodes.FORBIDDEN, HttpCodes.NOT_FOUND); other
numeric lookups yield undefined. -/
def httpReason (n : Nat) : Option Buff :=
  if n = 200 then some (str "OK")
  else if n = 403 then some (str "Forbidden")
  else if n = 404 then some (str "Not Found")
  else none

/-- One GitSmartProxy session as seen by accept / reject: status, the
classified service and repository, the response content type from
classification, the repository paths the backend command has been invoked
with (via GitStream.process, which calls this.__command exactly once),
the response written to the context, and whether an exception escaped an
accept call to the caller. -/
structure Session where
  status : RequestStatus := .PENDING
  service : ServiceType
  repository : Buff
  content_type : Buff
  invoked : List Buff := []
  resp : Option HttpResp := none
  uncaught : Bool := false
deriving DecidableEq, Repr

/-- GitSmartProxy.accept (src/index.ts lines 433-461): a no-op unless the
status is PENDING; the status becomes ACCEPTED before anything is
awaited; an UNKNOWN service aborts; a falsy repo_path argument falls back
to this.repository; source.process invokes the backend command once; when
that call rejects the exception propagates and the response lines are
never reached, and the status is not rolled back. -/
def accept (s : Session) (repo_path : Option Buff) (processFails : Bool) : Session :=
  if s.status ≠ .PENDING then s
  else
    let s1 := { s with status := RequestStatus.ACCEPTED }
    if s1.service = .UNKNOWN then s1
    else
      let rp := match repo_path with
        | none => s1.repository
        | some p => if p = [] then s1.repository else p
      let s2 := { s1 with invoked := s1.invoked ++ [rp] }
      if processFails then { s2 with uncaught := true }
      else { s2 with resp := some ⟨s2.content_type, 200, true, none⟩ }

/-- Arguments of reject, each either a string or a number. -/
inductive RejArg where
  | strA (v : Buff) : RejArg
  | numA (v : Nat) : RejArg
deriving DecidableEq, Repr

/-- GitSmartProxy.reject (src/index.ts lines 463-502): a no-op unless the
status is PENDING; otherwise the status becomes REJECTED and a plain text
response is written, with the typeof dispatch of the two optional
arguments, the 403 default status, and the http-status reason phrase
lookup (note the numeric branch always overwrites reason with the
lookup). -/
def reject (s : Session) (ar1 ar2 : Option RejArg) : Session :=
  if s.status ≠ .PENDING then s
  else
    let s1 := { s with status := RequestStatus.REJECTED }
    let pair : Option Buff × Option Nat :=
      match ar1 with
      | some (.strA v) =>
        (some v, match ar2 with | some (.numA n) => some n | _ => none)
      | some (.numA n) =>
        (httpReason n, some n)
      | _ => (none, none)
    let rstatus := match pair.2 with
      | none => 403
      | some n => if n = 0 then 403 else n
    let reason := match pair.1 with
      | none => httpReason rstatus
      | some v => if v = [] then httpReason rstatus else some v
    { s1 with resp := some ⟨str "text/plain", rstatus, false, reason⟩ }

/-- Outcome of one backend command invocation as observed by
GitStream.exists: the command promise may reject, or yield a stdout
stream which may emit an error event before ending and emits the given
data chunks. -/
inductive CmdResult where
  | throws : CmdResult
  | streams (errEvent : Bool) (chunks : List Buff) : CmdResult
deriving DecidableEq, Repr

/-- GitStream.exists (src/source.ts lines 227-239): resolves on the end
event with the exists flag, which an error event clears and which the
first data chunk updates to the comparison of the string fatal against
buffer.slice(0, 4) (four bytes, so the comparison is never equal).  When
the awaited command itself rejects, the async executor aborts and
resolve is never called: the promise neither resolves nor rejects to the
caller, modelled as none. -/
def existsCheck : CmdResult → Option Bool
  | .throws => none
  | .streams errEvent chunks =>
    let afterData := match chunks.head? with
      | none => true
      | some c => if str "fatal" ≠ jsSlice c (.num 0) (.num 4) then true else false
    some (!errEvent && afterData)

lemma take_of_append {α : Type} (l₁ l₂ : List α) (n : Nat) (h : l₁.length = n) :
    (l₁ ++ l₂).take n = l₁ := by
  subst h
  induction l₁ with
  | nil => simp
  | cons a t ih => simp [ih]

lemma drop_of_append {α : Type} (l₁ l₂ : List α) (n : Nat) (h : l₁.length = n) :
    (l₁ ++ l₂).drop n = l₂ := by
  subst h
  induction l₁ with
  | nil => simp
  | cons a t ih => simp [ih]

lemma jsSliceZero (p X : Buff) (n : Nat) (h : p.length = n) :
    jsSlice (p ++ X) (.num 0) (.num (n : Int)) = p := by
  have hle : n ≤ (p ++ X).length := by
    rw [List.length_append, h]; exact Nat.le_add_right _ _
  simp only [jsSlice, idxOf]
  rw [if_neg (by omega : ¬ ((n : Int) < 0)), if_neg (by omega : ¬ ((0 : Int) < 0))]
  simp only [Int.toNat_natCast, Int.toNat_zero]
  rw [Nat.min_eq_left hle, Nat.zero_min, List.drop_zero, take_of_append p X n h]

lemma pkt_length_append (p X : Buff) (h : p.length = 4) :
    pkt_length (p ++ X) = parseIntHex p := by
  unfold pkt_length
  exact congrArg parseIntHex (jsSliceZero p X 4 h)

/-- Claim C1: feeding a byte sequence in one chunk and feeding the same
bytes split at a chunk boundary through pkt_seperator does NOT emit the
same sequence of frames.  On the 12 bytes 00040008aaaa the single chunk
run emits the frame 0004 and then the bytes 008aaaa (dropping the byte at
index 4) before repeating 0004 forever, while the split run emits 0004
and then an empty slice and never terminates its first transform call, so
the second chunk is never consumed; the emitted sequences already differ
at the second frame, and neither run reaches next() within any fuel. -/
theorem c1_segmenter_not_chunk_invariant :
    (sepRun 6 [str "00040008aaaa"] none).frames ≠
      (sepRun 6 [str "0004", str "0008aaaa"] none).frames ∧
    (sepRun 6 [str "00040008aaaa"] none).frames.take 2 = [str "0004", str "008aaaa"] ∧
    (sepRun 6 [str "0004", str "0008aaaa"] none).frames.take 2 = [str "0004", str ""] ∧
    (sepRun 6 [str "00040008aaaa"] none).stalled = true ∧
    (sepRun 6 [str "0004", str "0008aaaa"] none).stalled = true := by
  decide

/-- Claim C2: pkt_length does not return -1 on non-hex content, it
returns NaN (Number.parseInt never throws, so the catch clause is dead),
and for a nonzero offset it does not parse the 4 bytes starting at that
offset at all: buffer.slice(offset, 4) ends at absolute index 4, so at
offset 4 of 00090009 it parses the empty string (NaN) although the four
bytes starting there, 0009, are valid hex with value 9. -/
theorem c2_pkt_length_nan_not_minus_one :
    pkt_length (str "want") = JSNum.nan ∧
    JSNum.nan ≠ JSNum.num (-1) ∧
    pkt_length (str "00090009") (.num 4) = JSNum.nan ∧
    parseIntHex (jsSlice (str "00090009") (.num 4) (.num 8)) = JSNum.num 9 := by
  decide

/-- Claim C6: classifying POST /myrepo/git-upload-pack with content type
application/x-git-upload-pack-request does not yield the PULL service
with repository myrepo: GitSmartProxy.match slices the path at
repository.length + 1, which still contains the separating slash, so
get_service sees /git-upload-pack, rejects it, and match returns
undefined (none); the wrong content type request equally returns
undefined rather than surfacing UNKNOWN. -/
theorem c6_post_classification_never_matches :
    gsMatch ⟨"POST", str "/myrepo/git-upload-pack", none,
      str "application/x-git-upload-pack-request"⟩ = none ∧
    strSliceFrom (str "/myrepo/git-upload-pack") ((str "myrepo").length + 1) =
      str "/git-upload-pack" ∧
    get_service (some (str "/git-upload-pack")) = none ∧
    gsMatch ⟨"POST", str "/myrepo/git-upload-pack", none, str "text/plain"⟩ = none := by
  decide

/-- Claim C7: an unrecognized request does not surface service UNKNOWN;
GitSmartProxy.match returns undefined and the destructuring in the
constructor throws a TypeError (modelled as none), both for a path that
matches no route and for a matching path with a wrong content type. -/
theorem c7_unrecognized_request_constructor_throws :
    mkProxy ⟨"GET", str "/foo/bar", none, str ""⟩ = none ∧
    mkProxy ⟨"POST", str "/myrepo/git-receive-pack", none, str "text/plain"⟩ = none ∧
    gsMatch ⟨"GET", str "/foo/bar", none, str ""⟩ = none := by
  decide

/-- Claim C9: exists() does not resolve to false on fatal output and does
not resolve at all when the command invocation rejects: the comparison of
the five character string fatal with the four byte slice(0, 4) is never
equal, so a stdout starting with fatal still resolves to true; an
invocation rejection aborts the promise executor before resolve. -/
theorem c9_exists_fatal_resolves_true :
    existsCheck (.streams false [str "fatal: not a git repository"]) = some true ∧
    existsCheck .throws = none ∧
    jsSlice (str "fatal: not a git repository") (.num 0) (.num 4) = str "fata" := by
  decide

lemma accept_no_op (s : Session) (rp : Option Buff) (pf : Bool)
    (h : s.status ≠ .PENDING) : accept s rp pf = s := by
  simp [accept, h]

lemma reject_no_op (s : Session) (a1 a2 : Option RejArg)
    (h : s.status ≠ .PENDING) : reject s a1 a2 = s := by
  simp [reject, h]

lemma accept_not_pending (s : Session) (rp : Option Buff) (pf : Bool) :
    (accept s rp pf).status ≠ .PENDING := by
  by_cases h : s.status = .PENDING
  · simp only [accept, h]
    split
    · simp_all
    · split
      · simp
      · split <;> simp
  · rw [accept_no_op s rp pf h]; exact h

lemma accept_invoked (s : Session) (rp : Option Buff) (pf : Bool)
    (h : s.status = .PENDING) (hs : s.service ≠ .UNKNOWN) :
    (accept s rp pf).invoked.length = s.invoked.length + 1 := by
  simp only [accept, h]
  split
  · simp_all
  · split
    · simp_all
    · split <;> simp

/-- Claim C8: accept and reject are idempotent no-ops outside the PENDING
status.  A second accept leaves the session exactly as the first left it,
a reject after an accept leaves it unchanged, any accept or reject on a
non-pending session is the identity, and a pair of accept calls on a
pending session with a recognized service invokes the backend command
exactly once. -/
theorem c8_accept_reject_idempotent :
    (∀ (s : Session) rp pf rp2 pf2, accept (accept s rp pf) rp2 pf2 = accept s rp pf) ∧
    (∀ (s : Session) rp pf a1 a2, reject (accept s rp pf) a1 a2 = accept s rp pf) ∧
    (∀ (s : Session) rp pf a1 a2, s.status ≠ .PENDING →
      accept s rp pf = s ∧ reject s a1 a2 = s) ∧
    (∀ (s : Session) rp pf rp2 pf2, s.status = .PENDING → s.service ≠ .UNKNOWN →
      (accept (accept s rp pf) rp2 pf2).invoked.length = s.invoked.length + 1) := by
  refine ⟨?_, ?_, ?_, ?_⟩
  · intro s rp pf rp2 pf2
    exact accept_no_op _ rp2 pf2 (accept_not_pending s rp pf)
  · intro s rp pf a1 a2
    exact reject_no_op _ a1 a2 (accept_not_pending s rp pf)
  · intro s rp pf a1 a2 h
    exact ⟨accept_no_op s rp pf h, reject_no_op s a1 a2 h⟩
  · intro s rp pf rp2 pf2 h hs
    rw [accept_no_op _ rp2 pf2 (accept_not_pending s rp pf)]
    exact accept_invoked s rp pf h hs

/-- Witness for claim C8 at a concrete pending pull session. -/
theorem c8_witness :
    (let s0 : Session :=
      { service := .PULL, repository := str "myrepo",
        content_type := str "application/x-git-upload-pack-result" }
     s0.status = .PENDING ∧ s0.service ≠ .UNKNOWN ∧
     (accept (accept s0 none false) none false).invoked.length = s0.invoked.length + 1 ∧
     reject (accept s0 none false) none none = accept s0 none false) := by
  exact ⟨rfl, by decide,
    c8_accept_reject_idempotent.2.2.2 _ none false none false rfl (by decide),
    c8_accept_reject_idempotent.2.1 _ none false none none⟩

lemma accept_fail_state (s : Session) (rp : Option Buff)
    (h : s.status = .PENDING) (hs : s.service ≠ .UNKNOWN) :
    (accept s rp true).status = .ACCEPTED ∧
    (accept s rp true).uncaught = true ∧
    (accept s rp true).resp = s.resp := by
  simp only [accept, h]
  split
  · simp_all
  · split
    · simp_all
    · split <;> simp_all

/-- Claim C10: accept marks the session ACCEPTED before awaiting the
backend command; when that command rejects the status is not rolled back,
no response field is ever written by the engine for the request, and all
later accept or reject calls are no-ops. -/
theorem c10_accept_failure_not_rolled_back :
    ∀ (s : Session) rp, s.status = .PENDING → s.service ≠ .UNKNOWN → s.resp = none →
      (accept s rp true).status = .ACCEPTED ∧
      (accept s rp true).uncaught = true ∧
      (accept s rp true).resp = none ∧
      (∀ rp2 pf2, accept (accept s rp true) rp2 pf2 = accept s rp true) ∧
      (∀ a1 a2, reject (accept s rp true) a1 a2 = accept s rp true) := by
  intro s rp h hs hr
  obtain ⟨h1, h2, h3⟩ := accept_fail_state s rp h hs
  refine ⟨h1, h2, h3.trans hr, ?_, ?_⟩
  · intro rp2 pf2
    exact accept_no_op _ rp2 pf2 (accept_not_pending s rp true)
  · intro a1 a2
    exact reject_no_op _ a1 a2 (accept_not_pending s rp true)

/-- Witness for claim C10 at a concrete pending push session whose
backend command rejects. -/
theorem c10_witness :
    (let s0 : Session :=
      { service := .PUSH, repository := str "myrepo",
        content_type := str "application/x-git-receive-pack-result" }
     s0.status = .PENDING ∧ s0.service ≠ .UNKNOWN ∧ s0.resp = none ∧
     (accept s0 none true).status = .ACCEPTED ∧
     (accept s0 none true).resp = none ∧
     reject (accept s0 none true) (some (.numA 404)) none = accept s0 none true) := by
  refine ⟨rfl, by decide, rfl, ?_, ?_, ?_⟩
  · exact (c10_accept_failure_not_rolled_back _ none rfl (by decide) rfl).1
  · exact (c10_accept_failure_not_rolled_back _ none rfl (by decide) rfl).2.2.1
  · exact (c10_accept_failure_not_rolled_back _ none rfl (by decide) rfl).2.2.2.2
      (some (.numA 404)) none

/-- All bytes a session has accepted, in delivery order: already relayed
to stdin, queued in the source, stacked in __buffers, or still pending. -/
def flowKey (s : StreamState) : List Buff :=
  s.stdin ++ (s.queue ++ ((s.buffers.getD []) ++ s.pending))

/-- Reachable-state invariant: once parsed, the write side can only be
released (next called) by source._read, which replays and deletes
__buffers first; hence a writable parsed session has no stacked buffers
left. -/
def flowInv (s : StreamState) : Prop :=
  s.parsed = true → s.canWrite = true → s.buffers = none

lemma stepEv_flow (action : GitMetadata → Buff → GitMetadata) (e : Ev) (s : StreamState)
    (hinv : flowInv s) :
    flowKey (stepEv action s e) = flowKey s ∧ flowInv (stepEv action s e) := by
  cases e with
  | write =>
    simp only [stepEv, stepWrite]
    by_cases hcw : s.canWrite
    · simp only [hcw, if_true]
      match hp : s.pending with
      | [] => exact ⟨rfl, hinv⟩
      | w :: ws =>
        by_cases hpar : s.parsed
        · have hb : s.buffers = none := hinv hpar hcw
          simp [hpar, flowKey, flowInv, hb, hp]
        · simp only [hpar, if_false, Bool.false_eq_true]
          split
          · constructor
            · simp [flowKey, hp]
            · intro h1 h2
              simp_all [flowInv]
          · constructor
            · simp [flowKey, hp]
            · intro h1 h2
              simp_all
    · simp [hcw, hinv]
  | readSrc =>
    simp only [stepEv, stepRead]
    by_cases hpar : s.parsed
    · simp [hpar, flowKey, flowInv]
    · simp [hpar, hinv]
  | drain =>
    simp only [stepEv, stepDrain]
    match hq : s.queue with
    | [] => exact ⟨rfl, hinv⟩
    | c :: q =>
      constructor
      · simp [flowKey, hq]
      · intro h1 h2
        exact hinv h1 h2

lemma runStream_flow (action : GitMetadata → Buff → GitMetadata) (evs : List Ev) :
    ∀ s : StreamState, flowInv s →
      flowKey (runStream action s evs) = flowKey s ∧ flowInv (runStream action s evs) := by
  induction evs with
  | nil => intro s h; exact ⟨rfl, h⟩
  | cons e evs ih =>
    intro s h
    obtain ⟨h1, h2⟩ := stepEv_flow action e s h
    obtain ⟨h3, h4⟩ := ih (stepEv action s e) h2
    exact ⟨by rw [runStream, h3, h1], by rw [runStream]; exact h4⟩

/-- Claim C5: for every sequence of chunks written to a ReceiveStream and
every schedule of source reads and stdin drains, once all writes have
been delivered, the source queue has been drained and the stacked
__buffers have been replayed, the backend stdin has received exactly the
written chunks in order: the pre-attachment frames (including the flush
frame that fired parsed) come first and the trailing overflow bytes are
never dropped. -/
theorem c5_receive_relay_in_order (ws : List Buff) (evs : List Ev)
    (hp : (runStream receiveAction (initStream ws) evs).pending = [])
    (hq : (runStream receiveAction (initStream ws) evs).queue = [])
    (hb : (runStream receiveAction (initStream ws) evs).buffers = none) :
    (runStream receiveAction (initStream ws) evs).stdin = ws := by
  have h0 : flowInv (initStream ws) := by
    intro h _
    simp [initStream] at h
  have h := (runStream_flow receiveAction evs (initStream ws) h0).1
  rw [flowKey, flowKey, hp, hq, hb] at h
  simpa [initStream] using h

set_option maxRecDepth 100000 in
/-- Witness for claim C5: the receive-pack request of the repository test
suite (header frame, flush, then raw pack bytes), under the schedule
write, write, source read (attachment replay), write, then three stdin
drains. -/
theorem c5_witness :
    (let ws := [str "00760a53e9ddeaddad63ad106860237bbf53411d11a7 441b40d833fdfa93eb2908e52742248faf0ee993 refs/heads/maint\x00 report-status\n",
                str "0000", str "\nPACK...."]
     let evs := [Ev.write, Ev.write, Ev.readSrc, Ev.write, Ev.drain, Ev.drain, Ev.drain]
     (runStream receiveAction (initStream ws) evs).pending = [] ∧
     (runStream receiveAction (initStream ws) evs).queue = [] ∧
     (runStream receiveAction (initStream ws) evs).buffers = none ∧
     (runStream receiveAction (initStream ws) evs).stdin = ws) := by
  refine ⟨by decide, by decide, by decide,
    c5_receive_relay_in_order _ _ (by decide) (by decide) (by decide)⟩

lemma take_le_append {α : Type} (l₁ l₂ : List α) (n : Nat) (h : n ≤ l₁.length) :
    (l₁ ++ l₂).take n = l₁.take n := by
  induction l₁ generalizing n with
  | nil =>
    simp only [List.length_nil, Nat.le_zero] at h
    simp [h]
  | cons a t ih =>
    cases n with
    | zero => simp
    | succ m =>
      simp only [List.cons_append, List.take_succ_cons, List.cons.injEq, true_and]
      exact ih m (by simpa using h)

lemma drop_le_append {α : Type} (l₁ l₂ : List α) (n : Nat) (h : n ≤ l₁.length) :
    (l₁ ++ l₂).drop n = l₁.drop n ++ l₂ := by
  induction l₁ generalizing n with
  | nil =>
    simp only [List.length_nil, Nat.le_zero] at h
    simp [h]
  | cons a t ih =>
    cases n with
    | zero => simp
    | succ m =>
      simp only [List.cons_append, List.drop_succ_cons]
      exact ih m (by simpa using h)

lemma jsSliceZeroLe (p X : Buff) (n : Nat) (h : n ≤ p.length) :
    jsSlice (p ++ X) (.num 0) (.num (n : Int)) = p.take n := by
  have hle : n ≤ (p ++ X).length := by rw [List.length_append]; omega
  simp only [jsSlice, idxOf]
  rw [if_neg (by omega : ¬ ((n : Int) < 0)), if_neg (by omega : ¬ ((0 : Int) < 0))]
  simp only [Int.toNat_natCast, Int.toNat_zero]
  rw [Nat.min_eq_left hle, Nat.zero_min, List.drop_zero, take_le_append p X n h]

lemma pkt_length_pre (p X : Buff) (h : 4 ≤ p.length) :
    pkt_length (p ++ X) = parseIntHex (p.take 4) := by
  unfold pkt_length
  exact congrArg parseIntHex (jsSliceZeroLe p X 4 h)

lemma uploadMatch_want (oid : Buff) (hlen : oid.length = 40)
    (hhex : oid.all isHexLower = true) :
    uploadMatch (str "0032want " ++ (oid ++ str "\n")) = some (str "want", oid) := by
  simp only [uploadMatch]
  rw [take_le_append _ _ 4 (by decide), drop_le_append _ _ 4 (by decide)]
  rw [show (str "0032want ").take 4 = str "0032" from rfl,
      show (str "0032want ").drop 4 = str "want " from rfl]
  rw [take_of_append (str "want ") _ 5 (by rfl), drop_of_append (str "want ") _ 5 (by rfl)]
  rw [take_le_append (str "want ") _ 4 (by decide)]
  rw [show (str "want ").take 4 = str "want" from rfl]
  rw [take_of_append oid _ 40 hlen, drop_of_append oid _ 40 hlen]
  rw [if_pos (by decide : (str "0032").length = 4 ∧ (str "0032").all isHexLower = true)]
  rw [if_pos (Or.inl rfl : str "want " = str "want " ∨ str "want " = str "have ")]
  rw [if_pos (⟨hlen, hhex, Or.inr rfl⟩ :
    oid.length = 40 ∧ oid.all isHexLower = true ∧ (str "\n" = [] ∨ str "\n" = [ '\n' ]))]

lemma uploadMatch_have (oid : Buff) (hlen : oid.length = 40)
    (hhex : oid.all isHexLower = true) :
    uploadMatch (str "0032have " ++ (oid ++ str "\n")) = some (str "have", oid) := by
  simp only [uploadMatch]
  rw [take_le_append _ _ 4 (by decide), drop_le_append _ _ 4 (by decide)]
  rw [show (str "0032have ").take 4 = str "0032" from rfl,
      show (str "0032have ").drop 4 = str "have " from rfl]
  rw [take_of_append (str "have ") _ 5 (by rfl), drop_of_append (str "have ") _ 5 (by rfl)]
  rw [take_le_append (str "have ") _ 4 (by decide)]
  rw [show (str "have ").take 4 = str "have" from rfl]
  rw [take_of_append oid _ 40 hlen, drop_of_append oid _ 40 hlen]
  rw [if_pos (by decide : (str "0032").length = 4 ∧ (str "0032").all isHexLower = true)]
  rw [if_pos (Or.inr rfl : str "have " = str "want " ∨ str "have " = str "have ")]
  rw [if_pos (⟨hlen, hhex, Or.inr rfl⟩ :
    oid.length = 40 ∧ oid.all isHexLower = true ∧ (str "\n" = [] ∨ str "\n" = [ '\n' ]))]

lemma uploadAction_want (m : GitMetadata) (oid : Buff) (hlen : oid.length = 40)
    (hhex : oid.all isHexLower = true) :
    uploadAction m (str "0032want " ++ (oid ++ str "\n")) =
      { m with want := some ((m.want.getD []) ++ [oid]) } := by
  unfold uploadAction
  rw [uploadMatch_want oid hlen hhex]
  rfl

lemma uploadAction_have (m : GitMetadata) (oid : Buff) (hlen : oid.length = 40)
    (hhex : oid.all isHexLower = true) :
    uploadAction m (str "0032have " ++ (oid ++ str "\n")) =
      { m with have_ := some ((m.have_.getD []) ++ [oid]) } := by
  unfold uploadAction
  rw [uploadMatch_have oid hlen hhex]
  rfl

lemma stepWrite_parse (act : GitMetadata → Buff → GitMetadata) (s : StreamState)
    (w : Buff) (ws : List Buff) (hcw : s.canWrite = true) (hp : s.parsed = false)
    (hpend : s.pending = w :: ws) (hlen : jsGtI (pkt_length w) 0 = true) :
    stepWrite act s = { s with pending := ws,
                               buffers := some (s.buffers.getD [] ++ [w]),
                               meta := act s.meta w } := by
  simp [stepWrite, hcw, hp, hpend, hlen]

lemma stepWrite_trigger (act : GitMetadata → Buff → GitMetadata) (s : StreamState)
    (w : Buff) (ws : List Buff) (hcw : s.canWrite = true) (hp : s.parsed = false)
    (hpend : s.pending = w :: ws) (hlen : jsGtI (pkt_length w) 0 = false) :
    stepWrite act s = { s with pending := ws,
                               buffers := some (s.buffers.getD [] ++ [w]),
                               parsed := true, canWrite := false } := by
  simp [stepWrite, hcw, hp, hpend, hlen]

lemma runStream_cons (act : GitMetadata → Buff → GitMetadata) (s : StreamState)
    (e : Ev) (evs : List Ev) :
    runStream act s (e :: evs) = runStream act (stepEv act s e) evs := rfl

/-- Feeding a run of parsable frames followed by one flush / unparsable
trigger frame: every frame is stacked on __buffers, the metadata action is
folded over the parsable frames, and the trigger flips parsed while
withholding next. -/
lemma runStream_writes (act : GitMetadata → Buff → GitMetadata) (frames : List Buff)
    (trigger : Buff) :
    ∀ s : StreamState, s.canWrite = true → s.parsed = false →
      s.pending = frames ++ [trigger] →
      (∀ f ∈ frames, jsGtI (pkt_length f) 0 = true) →
      jsGtI (pkt_length trigger) 0 = false →
      runStream act s (List.replicate (frames.length + 1) .write) =
        { s with pending := [], parsed := true, canWrite := false,
                 buffers := some (s.buffers.getD [] ++ (frames ++ [trigger])),
                 meta := frames.foldl act s.meta } := by
  induction frames with
  | nil =>
    intro s hcw hp hpend _ ht
    rw [show List.replicate (([] : List Buff).length + 1) Ev.write = [Ev.write] from rfl]
    rw [runStream_cons]
    rw [show stepEv act s .write = stepWrite act s from rfl]
    rw [stepWrite_trigger act s trigger [] hcw hp (by simpa using hpend) ht]
    rfl
  | cons f fs ih =>
    intro s hcw hp hpend hf ht
    rw [show List.replicate ((f :: fs).length + 1) Ev.write
          = Ev.write :: List.replicate (fs.length + 1) Ev.write from rfl]
    rw [runStream_cons]
    rw [show stepEv act s .write = stepWrite act s from rfl]
    rw [stepWrite_parse act s f (fs ++ [trigger]) hcw hp (by simpa using hpend)
      (hf f (by simp))]
    have ihx := ih { s with pending := fs ++ [trigger], buffers := some (s.buffers.getD [] ++ [f]), meta := act s.meta f } hcw hp rfl (fun g hg => hf g (by simp [hg])) ht
    rw [ihx]
    simp [List.append_assoc]

/-- The UploadStream state after writing the five frames of claim C3:
want A, want B, have C, have D, then the flush packet. -/
def c3run (A B C D : Buff) : StreamState :=
  runStream uploadAction (initStream
    [str "0032want " ++ (A ++ str "\n"), str "0032want " ++ (B ++ str "\n"),
     str "0032have " ++ (C ++ str "\n"), str "0032have " ++ (D ++ str "\n"),
     str "0000"]) [.write, .write, .write, .write, .write]

/-- Claim C3: writing the five frames 0032want A, 0032want B, 0032have C,
0032have D and the flush packet 0000 to an upload-pack stream fires the
parsed transition with metadata.want = [A, B] and metadata.have = [C, D]
in encounter order, for arbitrary 40 lowercase hex object ids. -/
theorem c3_upload_metadata (A B C D : Buff)
    (hA : A.length = 40 ∧ A.all isHexLower = true)
    (hB : B.length = 40 ∧ B.all isHexLower = true)
    (hC : C.length = 40 ∧ C.all isHexLower = true)
    (hD : D.length = 40 ∧ D.all isHexLower = true) :
    (c3run A B C D).parsed = true ∧
    (c3run A B C D).meta.want = some [A, B] ∧
    (c3run A B C D).meta.have_ = some [C, D] := by
  have hfr : ∀ f ∈ [str "0032want " ++ (A ++ str "\n"), str "0032want " ++ (B ++ str "\n"),
      str "0032have " ++ (C ++ str "\n"), str "0032have " ++ (D ++ str "\n")],
      jsGtI (pkt_length f) 0 = true := by
    intro f hf
    simp only [List.mem_cons, List.not_mem_nil, or_false] at hf
    rcases hf with rfl | rfl | rfl | rfl
    · rw [pkt_length_pre _ _ (by decide)]; decide
    · rw [pkt_length_pre _ _ (by decide)]; decide
    · rw [pkt_length_pre _ _ (by decide)]; decide
    · rw [pkt_length_pre _ _ (by decide)]; decide
  have hrun := runStream_writes uploadAction
    [str "0032want " ++ (A ++ str "\n"), str "0032want " ++ (B ++ str "\n"),
     str "0032have " ++ (C ++ str "\n"), str "0032have " ++ (D ++ str "\n")]
    (str "0000")
    (initStream [str "0032want " ++ (A ++ str "\n"), str "0032want " ++ (B ++ str "\n"),
      str "0032have " ++ (C ++ str "\n"), str "0032have " ++ (D ++ str "\n"), str "0000"])
    rfl rfl rfl hfr (by decide)
  unfold c3run
  rw [show ([Ev.write, Ev.write, Ev.write, Ev.write, Ev.write] : List Ev)
        = List.replicate (([str "0032want " ++ (A ++ str "\n"),
            str "0032want " ++ (B ++ str "\n"), str "0032have " ++ (C ++ str "\n"),
            str "0032have " ++ (D ++ str "\n")] : List Buff).length + 1) Ev.write from rfl]
  rw [hrun]
  rw [List.foldl_cons, uploadAction_want _ A hA.1 hA.2,
      List.foldl_cons, uploadAction_want _ B hB.1 hB.2,
      List.foldl_cons, uploadAction_have _ C hC.1 hC.2,
      List.foldl_cons, uploadAction_have _ D hD.1 hD.2,
      List.foldl_nil]
  exact ⟨rfl, rfl, rfl⟩

/-- Witness for claim C3 at the four object ids of the repository test
suite. -/
theorem c3_witness :
    (str "0a53e9ddeaddad63ad106860237bbf53411d11a7").length = 40 ∧
    (c3run (str "0a53e9ddeaddad63ad106860237bbf53411d11a7")
       (str "d049f6c27a2244e12041955e262a404c7faba355")
       (str "441b40d833fdfa93eb2908e52742248faf0ee993")
       (str "2cb58b79488a98d2721cea644875a8dd0026b115")).parsed = true ∧
    (c3run (str "0a53e9ddeaddad63ad106860237bbf53411d11a7")
       (str "d049f6c27a2244e12041955e262a404c7faba355")
       (str "441b40d833fdfa93eb2908e52742248faf0ee993")
       (str "2cb58b79488a98d2721cea644875a8dd0026b115")).meta.want =
      some [str "0a53e9ddeaddad63ad106860237bbf53411d11a7",
            str "d049f6c27a2244e12041955e262a404c7faba355"] := by
  have h := c3_upload_metadata
    (str "0a53e9ddeaddad63ad106860237bbf53411d11a7")
    (str "d049f6c27a2244e12041955e262a404c7faba355")
    (str "441b40d833fdfa93eb2908e52742248faf0ee993")
    (str "2cb58b79488a98d2721cea644875a8dd0026b115")
    ⟨by decide, by decide⟩ ⟨by decide, by decide⟩ ⟨by decide, by decide⟩
    ⟨by decide, by decide⟩
  exact ⟨by decide, h.1, h.2.1⟩

lemma receiveMatch_frame (old nw : Buff)
    (h1 : old.length = 40) (h2 : old.all isHexLower = true)
    (h3 : nw.length = 40) (h4 : nw.all isHexLower = true) :
    receiveMatch (str "0076" ++ (old ++ (str " " ++
        (nw ++ str " refs/heads/maint\x00 report-status\n")))) =
      some ⟨old, nw, str "refs/heads/maint", str "heads", str "maint",
        str " report-status"⟩ := by
  simp only [receiveMatch]
  rw [take_of_append (str "0076") _ 4 (by rfl), drop_of_append (str "0076") _ 4 (by rfl)]
  rw [take_of_append old _ 40 h1, drop_of_append old _ 40 h1]
  rw [take_of_append (str " ") _ 1 (by rfl), drop_of_append (str " ") _ 1 (by rfl)]
  rw [take_of_append nw _ 40 h3, drop_of_append nw _ 40 h3]
  rw [if_pos (by decide : (str "0076").length = 4 ∧ (str "0076").all isHexLower = true)]
  rw [if_pos (⟨h1, h2, rfl⟩ :
    old.length = 40 ∧ old.all isHexLower = true ∧ str " " = str " ")]
  rw [if_pos (⟨h3, h4, by rfl⟩ :
    nw.length = 40 ∧ nw.all isHexLower = true ∧
      (str " refs/heads/maint\x00 report-status\n").take 1 = str " ")]
  rfl

lemma receiveAction_frame (m : GitMetadata) (old nw : Buff)
    (h1 : old.length = 40) (h2 : old.all isHexLower = true)
    (h3 : nw.length = 40) (h4 : nw.all isHexLower = true) :
    receiveAction m (str "0076" ++ (old ++ (str " " ++
        (nw ++ str " refs/heads/maint\x00 report-status\n")))) =
      { m with old_commit := some old, new_commit := some nw,
               ref := some ⟨str "maint", str "refs/heads/maint", str "heads"⟩,
               capabilities := some [str "report-status"] } := by
  unfold receiveAction
  rw [receiveMatch_frame old nw h1 h2 h3 h4]
  rfl

/-- The ReceiveStream state after writing the claim C4 frame and the
flush packet. -/
def c4run (old nw : Buff) : StreamState :=
  runStream receiveAction (initStream
    [str "0076" ++ (old ++ (str " " ++ (nw ++ str " refs/heads/maint\x00 report-status\n"))),
     str "0000"]) [.write, .write]

/-- Claim C4: writing the single frame 0076 old space new space
refs/heads/maint NUL space report-status newline followed by a flush
packet to a receive-pack stream fires the parsed transition with
old_commit = old, new_commit = new, ref = (path refs/heads/maint, name
maint, type heads) and capabilities = [report-status], for arbitrary 40
lowercase hex commit ids (the ReceivePack iteration of part_004, whose
metadata carries the combined ref record). -/
theorem c4_receive_metadata (old nw : Buff)
    (h1 : old.length = 40) (h2 : old.all isHexLower = true)
    (h3 : nw.length = 40) (h4 : nw.all isHexLower = true) :
    (c4run old nw).parsed = true ∧
    (c4run old nw).meta.old_commit = some old ∧
    (c4run old nw).meta.new_commit = some nw ∧
    (c4run old nw).meta.ref = some ⟨str "maint", str "refs/heads/maint", str "heads"⟩ ∧
    (c4run old nw).meta.capabilities = some [str "report-status"] := by
  have hfr : ∀ f ∈ [str "0076" ++ (old ++ (str " " ++
      (nw ++ str " refs/heads/maint\x00 report-status\n")))],
      jsGtI (pkt_length f) 0 = true := by
    intro f hf
    simp only [List.mem_cons, List.not_mem_nil, or_false] at hf
    subst hf
    rw [pkt_length_pre _ _ (by decide)]; decide
  have hrun := runStream_writes receiveAction
    [str "0076" ++ (old ++ (str " " ++ (nw ++ str " refs/heads/maint\x00 report-status\n")))]
    (str "0000")
    (initStream [str "0076" ++ (old ++ (str " " ++
      (nw ++ str " refs/heads/maint\x00 report-status\n"))), str "0000"])
    rfl rfl rfl hfr (by decide)
  unfold c4run
  rw [show ([Ev.write, Ev.write] : List Ev)
        = List.replicate (([str "0076" ++ (old ++ (str " " ++
            (nw ++ str " refs/heads/maint\x00 report-status\n")))] : List Buff).length + 1)
            Ev.write from rfl]
  rw [hrun]
  rw [List.foldl_cons, receiveAction_frame _ old nw h1 h2 h3 h4, List.foldl_nil]
  exact ⟨rfl, rfl, rfl, rfl, rfl⟩

/-- Witness for claim C4 at the commit ids of the repository test suite. -/
theorem c4_witness :
    (str "0a53e9ddeaddad63ad106860237bbf53411d11a7").all isHexLower = true ∧
    (c4run (str "0a53e9ddeaddad63ad106860237bbf53411d11a7")
       (str "441b40d833fdfa93eb2908e52742248faf0ee993")).parsed = true ∧
    (c4run (str "0a53e9ddeaddad63ad106860237bbf53411d11a7")
       (str "441b40d833fdfa93eb2908e52742248faf0ee993")).meta.ref =
      some ⟨str "maint", str "refs/heads/maint", str "heads"⟩ := by
  have h := c4_receive_metadata
    (str "0a53e9ddeaddad63ad106860237bbf53411d11a7")
    (str "441b40d833fdfa93eb2908e52742248faf0ee993")
    (by decide) (by decide) (by decide) (by decide)
  exact ⟨by decide, h.1, h.2.2.2.1⟩

end KoaGitProxy
